import Mathlib

/-!
A verification development for the mitmproxy addon `syrah_bridge.py`
(class `SyrahBridge`): the rule matcher, the intercepted-flow registry,
the command handlers, flow serialization, and the request and response
engine hooks.  Socket I/O, logging, wall-clock timestamps and
pass-through scalar fields are elided; Python dictionaries are modelled
as association lists whose keys are kept distinct.
-/

namespace Syrah

/-- Body bytes are modelled as natural numbers below 256. -/
abbrev Bytes := List Nat

/-- Membership of a character in a glob character class, with ranges
such as a dash between a lower and an upper bound. -/
def charClassMatch (c : Char) : List Char → Bool
  | lo :: '-' :: hi :: rest =>
    (decide (lo ≤ c) && decide (c ≤ hi)) || charClassMatch c rest
  | d :: rest => (c == d) || charClassMatch c rest
  | [] => false

/-- Scan a glob character class up to the closing bracket, returning the
class body and the remaining pattern; none when the bracket is unclosed. -/
def scanClass : List Char → Option (List Char × List Char)
  | [] => none
  | ']' :: rest => some ([], rest)
  | c :: rest =>
    match scanClass rest with
    | none => none
    | some (cls, r) => some (c :: cls, r)

/-- Modelled from the spec: the Python standard library glob matcher
(`fnmatch.fnmatch`) the addon calls, which is external to the
repository.  A star matches any run of characters including path
separators, a question mark matches one character, brackets give a
character class (negated by a leading exclamation mark; a closing
bracket first in the class is a literal member; an unclosed bracket is a
literal character); the match is anchored to the whole string and is
case-sensitive, since case normalisation is the identity on POSIX.  The
fuel argument bounds the recursion depth; every step strictly shortens
the pattern plus the string, so the initial fuel chosen in `fnmatch`
below is never exhausted. -/
def globMatchF : Nat → List Char → List Char → Bool
  | 0, _, _ => false
  | fuel + 1, p, s =>
    match p, s with
    | [], s => s.isEmpty
    | '*' :: ps, s =>
      globMatchF fuel ps s ||
        (match s with
         | [] => false
         | _ :: cs => globMatchF fuel ('*' :: ps) cs)
    | '?' :: ps, s =>
      (match s with
       | [] => false
       | _ :: cs => globMatchF fuel ps cs)
    | '[' :: ps, s =>
      let negBody : Bool × List Char :=
        match ps with
        | '!' :: rest => (true, rest)
        | _ => (false, ps)
      let clsBody : List Char × List Char :=
        match negBody.2 with
        | ']' :: rest => ([']'], rest)
        | _ => ([], negBody.2)
      (match scanClass clsBody.2 with
       | none =>
         (match s with
          | [] => false
          | c :: cs => (c == '[') && globMatchF fuel ps cs)
       | some (cls, rest) =>
         (match s with
          | [] => false
          | c :: cs =>
            (if negBody.1 then !charClassMatch c (clsBody.1 ++ cls)
             else charClassMatch c (clsBody.1 ++ cls)) && globMatchF fuel rest cs))
    | pc :: ps, s =>
      (match s with
       | [] => false
       | c :: cs => (pc == c) && globMatchF fuel ps cs)

/-- `fnmatch.fnmatch(name, pat)` with fuel large enough for every
recursion path. -/
def fnmatch (name pat : String) : Bool :=
  globMatchF (pat.data.length + name.data.length + 1) pat.data name.data

/-- The request half of a flow: the fields the addon reads or writes.
`url` stands for the fully qualified request URL (`pretty_url`); after
an assignment to it the engine re-derives host, port and path, which are
therefore not duplicated here. -/
structure Request where
  method : String
  url : String
  headers : List (String × String)
  content : Option Bytes
deriving DecidableEq

/-- The response half of a flow, when the engine has received one. -/
structure Response where
  status_code : Nat
  headers : List (String × String)
  content : Option Bytes
deriving DecidableEq

/-- A flow as owned by the interception engine. -/
structure Flow where
  id : String
  request : Request
  response : Option Response
  intercepted : Bool
  error : Option String
deriving DecidableEq

/-- The `ProxyRule` dataclass. -/
structure ProxyRule where
  id : String
  type : String
  url_pattern : String
  enabled : Bool := true
  phase : String := "request"
  file_path : Option String := none
  target_url : Option String := none
  status_code : Option Nat := none
  headers : Option (List (String × String)) := none
  body : Option String := none
deriving DecidableEq

/-- The `RuleType` enumeration. -/
inductive RuleType
  | BREAKPOINT
  | MAP_LOCAL
  | MAP_REMOTE
  | BLOCK
deriving DecidableEq

/-- The string value of each `RuleType` member. -/
def RuleType.value : RuleType → String
  | .BREAKPOINT => "breakpoint"
  | .MAP_LOCAL => "mapLocal"
  | .MAP_REMOTE => "mapRemote"
  | .BLOCK => "block"

/-- Lookup in a Python dictionary modelled as an association list. -/
def dictLookup {α : Type} (m : List (String × α)) (k : String) : Option α :=
  match m with
  | [] => none
  | (k1, v) :: rest => if k1 = k then some v else dictLookup rest k

/-- Python dictionary assignment: replace the binding for the key in
place, or append a new binding. -/
def dictInsert {α : Type} (m : List (String × α)) (k : String) (v : α) :
    List (String × α) :=
  match m with
  | [] => [(k, v)]
  | (k1, v1) :: rest =>
    if k1 = k then (k, v) :: rest else (k1, v1) :: dictInsert rest k v

/-- Python `dict.pop`: remove the binding for the key. -/
def dictPop {α : Type} (m : List (String × α)) (k : String) :
    List (String × α) :=
  match m with
  | [] => []
  | (k1, v1) :: rest => if k1 = k then rest else (k1, v1) :: dictPop rest k

/-- Modelled from the spec: the engine's textual decoding of body bytes
(mitmproxy `get_text`, external to the repository), which raises on
content that is not text; represented as strict decoding of bytes below
128. -/
def get_text (bs : Bytes) : Option String :=
  if bs.all (fun b => b < 128) then some (String.mk (bs.map Char.ofNat))
  else none

/-- Modelled from the spec: the engine's textual body encoding
(mitmproxy `set_text`, external to the repository), represented as the
character codes of the string; the engine recomputes length bookkeeping
from the stored bytes. -/
def set_text_bytes (s : String) : Bytes := s.data.map Char.toNat

/-- One lowercase hexadecimal digit. -/
def hexDigitChar (n : Nat) : Char :=
  if n < 10 then Char.ofNat (48 + n) else Char.ofNat (87 + n)

/-- Python `bytes.hex`: two lowercase hexadecimal digits per byte. -/
def bytesHex (bs : Bytes) : String :=
  String.mk (bs.foldr
    (fun b acc => hexDigitChar (b / 16 % 16) :: hexDigitChar (b % 16) :: acc) [])

/-- Python truthiness of an optional string: present and non-empty. -/
def optStrTruthy : Option String → Bool
  | some s => s != ""
  | none => false

/-- Python truthiness of an optional byte string: present and non-empty. -/
def bytesTruthy : Option Bytes → Bool
  | some bs => !bs.isEmpty
  | none => false

/-- Python truthiness of an optional header mapping. -/
def headersTruthy : Option (List (String × String)) → Bool
  | some hs => !hs.isEmpty
  | none => false

/-- The addon state the claims concern: the rule list and the
intercepted-flow registry (the client set, port and event loop are
connection-context state, elided here). -/
structure SyrahBridge where
  rules : List ProxyRule
  intercepted_flows : List (String × Flow)
deriving DecidableEq

/-- Check if a URL matches a pattern (supports wildcards). -/
def _matches_pattern (url pat : String) : Bool := fnmatch url pat

/-- The scan of `self.rules` performed by `_find_matching_rule`. -/
def findRuleIn (url phase : String) (rule_type : Option String) :
    List ProxyRule → Option ProxyRule
  | [] => none
  | r :: rs =>
    if !r.enabled then findRuleIn url phase rule_type rs
    else if r.phase != phase then findRuleIn url phase rule_type rs
    else if optStrTruthy rule_type && (r.type != rule_type.getD "") then
      findRuleIn url phase rule_type rs
    else if _matches_pattern url r.url_pattern then some r
    else findRuleIn url phase rule_type rs

/-- Find the first matching rule for a flow. -/
def SyrahBridge._find_matching_rule (st : SyrahBridge) (flow : Flow)
    (phase : String) (rule_type : Option String := none) : Option ProxyRule :=
  findRuleIn flow.request.url phase rule_type st.rules

/-- The request part of an event envelope.  The outer option of `body`
and `bodyBase64` records whether the key is present at all; the inner
option distinguishes a JSON null from a string value. -/
structure RequestData where
  method : String
  url : String
  headers : List (String × String)
  contentLength : Nat
  body : Option (Option String)
  bodyBase64 : Option (Option String)
deriving DecidableEq

/-- The response part of an event envelope. -/
structure ResponseData where
  statusCode : Nat
  headers : List (String × String)
  contentLength : Nat
  body : Option (Option String)
deriving DecidableEq

/-- The event envelope (the wall-clock timestamp is elided). -/
structure FlowEvent where
  type : String
  phase : String
  id : String
  intercepted : Bool
  request : RequestData
  response : Option ResponseData
  error : Option String
deriving DecidableEq

/-- Serialize a flow to the event envelope for the client. -/
def SyrahBridge._serialize_flow (flow : Flow) (phase : String) : FlowEvent :=
  let reqContent := flow.request.content.getD []
  let base : RequestData :=
    { method := flow.request.method
      url := flow.request.url
      headers := flow.request.headers
      contentLength :=
        if bytesTruthy flow.request.content then reqContent.length else 0
      body := none
      bodyBase64 := none }
  let request_data :=
    if bytesTruthy flow.request.content && decide (reqContent.length < 1000000) then
      match get_text reqContent with
      | some t => { base with body := some (some t) }
      | none =>
        { base with
            body := some none
            bodyBase64 :=
              some (if bytesTruthy flow.request.content
                    then some (bytesHex reqContent) else none) }
    else base
  let response_data : Option ResponseData :=
    match flow.response with
    | some resp =>
      let respContent := resp.content.getD []
      let rbase : ResponseData :=
        { statusCode := resp.status_code
          headers := resp.headers
          contentLength :=
            if bytesTruthy resp.content then respContent.length else 0
          body := none }
      some
        (if bytesTruthy resp.content && decide (respContent.length < 1000000) then
           match get_text respContent with
           | some t => { rbase with body := some (some t) }
           | none => { rbase with body := some none }
         else rbase)
    | none => none
  { type := "flow"
    phase := phase
    id := flow.id
    intercepted := flow.intercepted
    request := request_data
    response := response_data
    error := flow.error }

/-- An inbound rule object of an updateRules command: the keys present
in the JSON dictionary (for the payload fields a null value and an
absent key decode alike, so both are none). -/
structure RuleJson where
  id : Option String := none
  type : Option String := none
  urlPattern : Option String := none
  enabled : Option Bool := none
  phase : Option String := none
  filePath : Option String := none
  targetUrl : Option String := none
  statusCode : Option Nat := none
  headers : Option (List (String × String)) := none
  body : Option String := none
deriving DecidableEq

/-- Decode one rule object with the defaults used by
`_handle_update_rules`. -/
def decodeRule (r : RuleJson) : ProxyRule :=
  { id := r.id.getD ""
    type := r.type.getD ""
    url_pattern := r.urlPattern.getD ""
    enabled := r.enabled.getD true
    phase := r.phase.getD "request"
    file_path := r.filePath
    target_url := r.targetUrl
    status_code := r.statusCode
    headers := r.headers
    body := r.body }

/-- Update the rules list. -/
def SyrahBridge._handle_update_rules (st : SyrahBridge)
    (rules_data : List RuleJson) : SyrahBridge :=
  { st with rules := rules_data.map decodeRule }

/-- The request part of a resume command's modified object; none stands
for an absent key. -/
structure ReqMod where
  method : Option String := none
  url : Option String := none
  headers : Option (List (String × String)) := none
  body : Option String := none
deriving DecidableEq

/-- The response part of a resume command's modified object. -/
structure RespMod where
  status_code : Option Nat := none
  headers : Option (List (String × String)) := none
  body : Option String := none
deriving DecidableEq

/-- The modified object of a resume command; none stands for an absent
key. -/
structure Modified where
  request : Option ReqMod := none
  response : Option RespMod := none
deriving DecidableEq

/-- Clear all existing headers, then set each given key and value in
order. -/
def replaceHeaders (hs : List (String × String)) : List (String × String) :=
  hs.foldl (fun acc kv => dictInsert acc kv.1 kv.2) []

/-- Apply the request part of a modified object. -/
def applyReqMod (rm : ReqMod) (req : Request) : Request :=
  let r1 := match rm.method with
    | some m => { req with method := m }
    | none => req
  let r2 := match rm.url with
    | some u => { r1 with url := u }
    | none => r1
  let r3 := match rm.headers with
    | some hs => { r2 with headers := replaceHeaders hs }
    | none => r2
  match rm.body with
  | some b => { r3 with content := some (set_text_bytes b) }
  | none => r3

/-- Apply the response part of a modified object. -/
def applyRespMod (rm : RespMod) (resp : Response) : Response :=
  let r1 := match rm.status_code with
    | some sc => { resp with status_code := sc }
    | none => resp
  let r2 := match rm.headers with
    | some hs => { r1 with headers := replaceHeaders hs }
    | none => r1
  match rm.body with
  | some b => { r2 with content := some (set_text_bytes b) }
  | none => r2

/-- Apply a truthy modified object to a held flow; the response part is
applied only when the flow has a response. -/
def applyModified (m : Modified) (flow : Flow) : Flow :=
  let f1 :=
    match m.request with
    | some rm => { flow with request := applyReqMod rm flow.request }
    | none => flow
  match m.response, f1.response with
  | some rm, some resp => { f1 with response := some (applyRespMod rm resp) }
  | _, _ => f1

/-- Resume an intercepted flow, optionally with modifications.  The
returned option is the released (and resumed) flow handle; none reports
the not-found warning.  A `modified` of none covers an absent, null or
empty (hence falsy) modified object. -/
def SyrahBridge._handle_resume (st : SyrahBridge) (flow_id : String)
    (modified : Option Modified) : SyrahBridge × Option Flow :=
  match dictLookup st.intercepted_flows flow_id with
  | some flow =>
    let flow1 := match modified with
      | some m => applyModified m flow
      | none => flow
    ({ st with intercepted_flows := dictPop st.intercepted_flows flow_id },
      some flow1)
  | none => (st, none)

/-- Kill an intercepted flow.  The returned option is the released (and
killed) flow handle; none reports the not-found warning. -/
def SyrahBridge._handle_kill (st : SyrahBridge) (flow_id : String) :
    SyrahBridge × Option Flow :=
  match dictLookup st.intercepted_flows flow_id with
  | some flow =>
    ({ st with intercepted_flows := dictPop st.intercepted_flows flow_id },
      some flow)
  | none => (st, none)

/-- An inbound client command, decoded. -/
inductive Cmd
  | resume (flowId : String) (modified : Option Modified)
  | kill (flowId : String)
  | updateRules (rules : List RuleJson)
  | ping
  | unknown
deriving DecidableEq

/-- The observable outcome of processing one command. -/
inductive CmdResult
  | resumed (flowId : String) (flow : Flow)
  | killed (flowId : String) (flow : Flow)
  | notFound (flowId : String)
  | rulesUpdated
  | pong
  | unknownCmd
deriving DecidableEq

/-- Process a command from the client. -/
def SyrahBridge._process_command (st : SyrahBridge) :
    Cmd → SyrahBridge × CmdResult
  | .resume fid m =>
    match st._handle_resume fid m with
    | (st1, some f) => (st1, .resumed fid f)
    | (st1, none) => (st1, .notFound fid)
  | .kill fid =>
    match st._handle_kill fid with
    | (st1, some f) => (st1, .killed fid f)
    | (st1, none) => (st1, .notFound fid)
  | .updateRules rs => (st._handle_update_rules rs, .rulesUpdated)
  | .ping => (st, .pong)
  | .unknown => (st, .unknownCmd)

/-- Process a sequence of commands, collecting the results. -/
def runCmds (st : SyrahBridge) : List Cmd → SyrahBridge × List CmdResult
  | [] => (st, [])
  | c :: cs =>
    let p := st._process_command c
    let q := runCmds p.1 cs
    (q.1, p.2 :: q.2)

/-- Whether a command result records a successful release of the id. -/
def releasesId (fid : String) : CmdResult → Bool
  | .resumed f _ => f == fid
  | .killed f _ => f == fid
  | _ => false

/-- Whether a command is an updateRules command. -/
def isUpdateRules : Cmd → Bool
  | .updateRules _ => true
  | _ => false

/-- The outcome of one engine hook invocation: the new addon state, the
flow object as mutated by the hook (the registry entry aliases it),
whether the flow was killed, and the events handed to the broadcaster
(delivery over sockets is connection-context work, elided). -/
structure HookResult where
  st : SyrahBridge
  flow : Flow
  killed : Bool
  events : List (String × Flow)
deriving DecidableEq

/-- The flow after the request-phase breakpoint check: a matching
breakpoint rule intercepts the flow. -/
def SyrahBridge.requestIntercepted (st : SyrahBridge) (flow : Flow) : Flow :=
  if (st._find_matching_rule flow "request" (some RuleType.BREAKPOINT.value)).isSome
  then { flow with intercepted := true }
  else flow

/-- The flow after the request-phase map-remote check: a matching rule
with a truthy target URL rewrites the flow's URL. -/
def SyrahBridge.requestRewritten (st : SyrahBridge) (flow : Flow) : Flow :=
  let flow1 := st.requestIntercepted flow
  match st._find_matching_rule flow1 "request" (some RuleType.MAP_REMOTE.value) with
  | some r =>
    if optStrTruthy r.target_url then
      { flow1 with request := { flow1.request with url := r.target_url.getD "" } }
    else flow1
  | none => flow1

/-- Called when a request is received: breakpoint, then map remote, then
block, then the request-phase event.  A matching breakpoint registers
the flow object itself, so the registry entry reflects the later URL
rewrite of the same object. -/
def SyrahBridge.request (st : SyrahBridge) (flow : Flow) : HookResult :=
  let flow2 := st.requestRewritten flow
  let st1 :=
    if (st._find_matching_rule flow "request" (some RuleType.BREAKPOINT.value)).isSome
    then { st with intercepted_flows := dictInsert st.intercepted_flows flow.id flow2 }
    else st
  if (st._find_matching_rule flow2 "request" (some RuleType.BLOCK.value)).isSome
  then { st := st1, flow := flow2, killed := true, events := [] }
  else { st := st1, flow := flow2, killed := false, events := [("request", flow2)] }

/-- Modelled from the spec: the local file system read used by map-local
rules, which is external to the repository; none stands for a read
failure. -/
abbrev FileSystem := String → Option Bytes

/-- `http.Response.make` restricted to the fields modelled here. -/
def Response.make (status_code : Nat) (content : Bytes)
    (headers : List (String × String)) : Response :=
  { status_code := status_code, headers := headers, content := some content }

/-- The flow after the response-phase map-local check: a matching rule
with a truthy file path and a readable file replaces the whole response;
a read failure leaves the original response untouched (logged,
non-fatal). -/
def SyrahBridge.responseMapped (fs : FileSystem) (st : SyrahBridge)
    (flow : Flow) : Flow :=
  match st._find_matching_rule flow "response" (some RuleType.MAP_LOCAL.value) with
  | some r =>
    if optStrTruthy r.file_path then
      match fs (r.file_path.getD "") with
      | some content =>
        { flow with response := some (Response.make
            (match r.status_code with
             | some sc => if sc == 0 then 200 else sc
             | none => 200)
            content
            (if headersTruthy r.headers then r.headers.getD []
             else [("Content-Type", "application/octet-stream")])) }
      | none => flow
    else flow
  | none => flow

/-- Called when a response is received: map local, then breakpoint, then
the response-phase event. -/
def SyrahBridge.response (fs : FileSystem) (st : SyrahBridge) (flow : Flow) :
    HookResult :=
  let flow1 := st.responseMapped fs flow
  let bp :=
    st._find_matching_rule flow1 "response" (some RuleType.BREAKPOINT.value)
  let flow2 := if bp.isSome then { flow1 with intercepted := true } else flow1
  let st1 :=
    if bp.isSome
    then { st with intercepted_flows := dictInsert st.intercepted_flows flow2.id flow2 }
    else st
  { st := st1, flow := flow2, killed := false, events := [("response", flow2)] }

/-! ### Association-list lemmas for the Python dictionary model -/

theorem dictLookup_dictInsert_self {α : Type} (m : List (String × α))
    (k : String) (v : α) : dictLookup (dictInsert m k v) k = some v := by
  induction m with
  | nil => simp [dictInsert, dictLookup]
  | cons p rest ih =>
    obtain ⟨k1, v1⟩ := p
    by_cases h : k1 = k
    · simp [dictInsert, dictLookup, h]
    · simp [dictInsert, dictLookup, h, ih]

theorem dictLookup_dictInsert_ne {α : Type} (m : List (String × α))
    (k1 k : String) (v : α) (h : k1 ≠ k) :
    dictLookup (dictInsert m k1 v) k = dictLookup m k := by
  induction m with
  | nil => simp [dictInsert, dictLookup, h]
  | cons p rest ih =>
    obtain ⟨k2, v2⟩ := p
    by_cases h2 : k2 = k1
    · subst h2; simp [dictInsert, dictLookup, h]
    · by_cases h3 : k2 = k
      · simp [dictInsert, dictLookup, h2, h3, Ne.symm h]
      · simp [dictInsert, dictLookup, h2, h3, ih]

theorem dictLookup_dictPop_ne {α : Type} (m : List (String × α))
    (k1 k : String) (h : k1 ≠ k) :
    dictLookup (dictPop m k1) k = dictLookup m k := by
  induction m with
  | nil => simp [dictPop, dictLookup]
  | cons p rest ih =>
    obtain ⟨k2, v2⟩ := p
    by_cases h2 : k2 = k1
    · subst h2; simp [dictPop, dictLookup, h, ih]
    · by_cases h3 : k2 = k
      · simp [dictPop, dictLookup, h2, h3, Ne.symm h]
      · simp [dictPop, dictLookup, h2, h3, ih]

theorem dictLookup_eq_none_of_not_mem {α : Type} (m : List (String × α))
    (k : String) (h : k ∉ m.map Prod.fst) : dictLookup m k = none := by
  induction m with
  | nil => simp [dictLookup]
  | cons p rest ih =>
    obtain ⟨k1, v1⟩ := p
    simp only [List.map_cons, List.mem_cons, not_or] at h
    have : k1 ≠ k := fun e => h.1 e.symm
    simp [dictLookup, this, ih h.2]

theorem dictLookup_dictPop_self {α : Type} (m : List (String × α))
    (k : String) (hnd : (m.map Prod.fst).Nodup) :
    dictLookup (dictPop m k) k = none := by
  induction m with
  | nil => simp [dictPop, dictLookup]
  | cons p rest ih =>
    obtain ⟨k1, v1⟩ := p
    simp only [List.map_cons, List.nodup_cons] at hnd
    by_cases h : k1 = k
    · subst h
      have hpop : dictPop ((k1, v1) :: rest) k1 = rest := by simp [dictPop]
      rw [hpop]
      exact dictLookup_eq_none_of_not_mem rest k1 hnd.1
    · simp [dictPop, dictLookup, h, ih hnd.2]

theorem dictPop_keys_sublist {α : Type} (m : List (String × α)) (k : String) :
    ((dictPop m k).map Prod.fst).Sublist (m.map Prod.fst) := by
  induction m with
  | nil => simp [dictPop]
  | cons p rest ih =>
    obtain ⟨k1, v1⟩ := p
    by_cases h : k1 = k
    · subst h
      have hpop : dictPop ((k1, v1) :: rest) k1 = rest := by simp [dictPop]
      rw [hpop]
      exact List.sublist_cons_self k1 (rest.map Prod.fst)
    · simp only [dictPop, if_neg h, List.map_cons]
      exact ih.cons₂ k1

theorem dictPop_keys_nodup {α : Type} (m : List (String × α)) (k : String)
    (hnd : (m.map Prod.fst).Nodup) : ((dictPop m k).map Prod.fst).Nodup :=
  (dictPop_keys_sublist m k).nodup hnd

theorem mem_keys_dictInsert {α : Type} (m : List (String × α))
    (k x : String) (v : α) :
    x ∈ (dictInsert m k v).map Prod.fst ↔ x ∈ m.map Prod.fst ∨ x = k := by
  induction m with
  | nil => simp [dictInsert]
  | cons p rest ih =>
    obtain ⟨k1, v1⟩ := p
    by_cases h : k1 = k
    · subst h
      have hi : dictInsert ((k1, v1) :: rest) k1 v = (k1, v) :: rest := by
        simp [dictInsert]
      rw [hi]
      simp only [List.map_cons, List.mem_cons]
      tauto
    · simp only [dictInsert, if_neg h, List.map_cons, List.mem_cons, ih]
      tauto

theorem dictInsert_keys_nodup {α : Type} (m : List (String × α))
    (k : String) (v : α) (hnd : (m.map Prod.fst).Nodup) :
    ((dictInsert m k v).map Prod.fst).Nodup := by
  induction m with
  | nil => simp [dictInsert]
  | cons p rest ih =>
    obtain ⟨k1, v1⟩ := p
    simp only [List.map_cons, List.nodup_cons] at hnd
    by_cases h : k1 = k
    · subst h
      have hi : dictInsert ((k1, v1) :: rest) k1 v = (k1, v) :: rest := by
        simp [dictInsert]
      rw [hi]
      simp only [List.map_cons, List.nodup_cons]
      exact ⟨hnd.1, hnd.2⟩
    · simp only [dictInsert, if_neg h, List.map_cons, List.nodup_cons]
      refine ⟨?_, ih hnd.2⟩
      rw [mem_keys_dictInsert]
      rintro (hmem | hk)
      · exact hnd.1 hmem
      · exact h hk

theorem dictInsert_append_of_not_mem {α : Type} (m : List (String × α))
    (k : String) (v : α) (h : k ∉ m.map Prod.fst) :
    dictInsert m k v = m ++ [(k, v)] := by
  induction m with
  | nil => simp [dictInsert]
  | cons p rest ih =>
    obtain ⟨k1, v1⟩ := p
    simp only [List.map_cons, List.mem_cons, not_or] at h
    have : k1 ≠ k := fun e => h.1 e.symm
    simp [dictInsert, this, ih h.2]

theorem foldl_dictInsert_eq_append (hs : List (String × String)) :
    ∀ acc : List (String × String),
      (∀ x, x ∈ hs.map Prod.fst → x ∉ acc.map Prod.fst) →
      (hs.map Prod.fst).Nodup →
      hs.foldl (fun acc kv => dictInsert acc kv.1 kv.2) acc = acc ++ hs := by
  induction hs with
  | nil => intro acc _ _; simp
  | cons p t ih =>
    intro acc hdisj hnd
    obtain ⟨k, v⟩ := p
    simp only [List.map_cons, List.nodup_cons] at hnd
    have hk : k ∉ acc.map Prod.fst := hdisj k (by simp)
    have hdisj2 : ∀ x, x ∈ t.map Prod.fst →
        x ∉ (acc ++ [(k, v)]).map Prod.fst := by
      intro x hx
      simp only [List.map_append, List.mem_append, List.map_cons,
        List.map_nil, List.mem_cons, List.not_mem_nil, or_false, not_or]
      exact ⟨hdisj x (by simp [hx]), fun he => hnd.1 (he ▸ hx)⟩
    rw [List.foldl_cons]
    show List.foldl (fun acc kv => dictInsert acc kv.1 kv.2)
      (dictInsert acc k v) t = acc ++ (k, v) :: t
    rw [dictInsert_append_of_not_mem acc k v hk,
      ih (acc ++ [(k, v)]) hdisj2 hnd.2]
    simp

theorem replaceHeaders_eq_self (hs : List (String × String))
    (hnd : (hs.map Prod.fst).Nodup) : replaceHeaders hs = hs := by
  have := foldl_dictInsert_eq_append hs [] (by simp) hnd
  simpa [replaceHeaders] using this

/-! ### The rule matcher as a first-match scan -/

/-- The qualification predicate of the matcher claim, amended: a type
filter is effective only when it is a non-empty string. -/
def ruleQualifies (url phase : String) (rule_type : Option String)
    (r : ProxyRule) : Bool :=
  r.enabled && (r.phase == phase) &&
    (match rule_type with
     | some t => (t == "") || (r.type == t)
     | none => true) &&
    _matches_pattern url r.url_pattern

theorem findRuleIn_eq_find (url phase : String) (rt : Option String)
    (rs : List ProxyRule) :
    findRuleIn url phase rt rs = rs.find? (ruleQualifies url phase rt) := by
  induction rs with
  | nil => rfl
  | cons r t ih =>
    cases rt with
    | none =>
      by_cases he : r.enabled = true <;>
        by_cases hp : (r.phase == phase) = true <;>
        by_cases hm : _matches_pattern url r.url_pattern = true <;>
        simp [findRuleIn, ruleQualifies, he, hp, hm, ih, optStrTruthy, bne,
          List.find?]
    | some s =>
      by_cases he : r.enabled = true <;>
        by_cases hp : (r.phase == phase) = true <;>
        by_cases hs : (s == "") = true <;>
        by_cases hts : (r.type == s) = true <;>
        by_cases hm : _matches_pattern url r.url_pattern = true <;>
        simp [findRuleIn, ruleQualifies, he, hp, hs, hts, hm, ih, optStrTruthy,
          bne, List.find?]

/-! ### Command-sequence lemmas for the intercepted-flow registry -/

theorem process_preserves_rules (st : SyrahBridge) (c : Cmd)
    (h : isUpdateRules c = false) :
    (st._process_command c).1.rules = st.rules := by
  cases c with
  | resume fid m =>
    cases hl : dictLookup st.intercepted_flows fid with
    | none =>
      simp [SyrahBridge._process_command, SyrahBridge._handle_resume, hl]
    | some f =>
      simp [SyrahBridge._process_command, SyrahBridge._handle_resume, hl]
  | kill fid =>
    cases hl : dictLookup st.intercepted_flows fid with
    | none => simp [SyrahBridge._process_command, SyrahBridge._handle_kill, hl]
    | some f => simp [SyrahBridge._process_command, SyrahBridge._handle_kill, hl]
  | updateRules rs => simp [isUpdateRules] at h
  | ping => rfl
  | unknown => rfl

theorem runCmds_preserves_rules (cs : List Cmd) :
    ∀ st : SyrahBridge, (∀ c ∈ cs, isUpdateRules c = false) →
      (runCmds st cs).1.rules = st.rules := by
  induction cs with
  | nil => intro st _; rfl
  | cons c t ih =>
    intro st hall
    have h1 : isUpdateRules c = false := hall c (by simp)
    have h2 : ∀ c1 ∈ t, isUpdateRules c1 = false := fun c1 hc1 =>
      hall c1 (by simp [hc1])
    show (runCmds (st._process_command c).1 t).1.rules = st.rules
    rw [ih (st._process_command c).1 h2, process_preserves_rules st c h1]

theorem process_preserves_absent (st : SyrahBridge) (c : Cmd) (fid : String)
    (h : dictLookup st.intercepted_flows fid = none) :
    dictLookup (st._process_command c).1.intercepted_flows fid = none ∧
      releasesId fid (st._process_command c).2 = false := by
  cases c with
  | resume fid1 m =>
    by_cases heq : fid1 = fid
    · subst heq
      simp [SyrahBridge._process_command, SyrahBridge._handle_resume, h,
        releasesId]
    · cases hl : dictLookup st.intercepted_flows fid1 with
      | none =>
        simp [SyrahBridge._process_command, SyrahBridge._handle_resume, hl,
          releasesId, h, heq]
      | some f =>
        refine ⟨?_, ?_⟩
        · simp only [SyrahBridge._process_command,
            SyrahBridge._handle_resume, hl]
          rw [dictLookup_dictPop_ne st.intercepted_flows fid1 fid heq]
          exact h
        · simp [SyrahBridge._process_command, SyrahBridge._handle_resume, hl,
            releasesId, heq]
  | kill fid1 =>
    by_cases heq : fid1 = fid
    · subst heq
      simp [SyrahBridge._process_command, SyrahBridge._handle_kill, h,
        releasesId]
    · cases hl : dictLookup st.intercepted_flows fid1 with
      | none =>
        simp [SyrahBridge._process_command, SyrahBridge._handle_kill, hl,
          releasesId, h, heq]
      | some f =>
        refine ⟨?_, ?_⟩
        · simp only [SyrahBridge._process_command, SyrahBridge._handle_kill, hl]
          rw [dictLookup_dictPop_ne st.intercepted_flows fid1 fid heq]
          exact h
        · simp [SyrahBridge._process_command, SyrahBridge._handle_kill, hl,
            releasesId, heq]
  | updateRules rs =>
    simp [SyrahBridge._process_command, SyrahBridge._handle_update_rules, h,
      releasesId]
  | ping => simp [SyrahBridge._process_command, h, releasesId]
  | unknown => simp [SyrahBridge._process_command, h, releasesId]

theorem process_preserves_nodup (st : SyrahBridge) (c : Cmd)
    (hnd : (st.intercepted_flows.map Prod.fst).Nodup) :
    ((st._process_command c).1.intercepted_flows.map Prod.fst).Nodup := by
  cases c with
  | resume fid m =>
    cases hl : dictLookup st.intercepted_flows fid with
    | none =>
      simpa [SyrahBridge._process_command, SyrahBridge._handle_resume, hl]
        using hnd
    | some f =>
      simp only [SyrahBridge._process_command, SyrahBridge._handle_resume, hl]
      exact dictPop_keys_nodup st.intercepted_flows fid hnd
  | kill fid =>
    cases hl : dictLookup st.intercepted_flows fid with
    | none =>
      simpa [SyrahBridge._process_command, SyrahBridge._handle_kill, hl]
        using hnd
    | some f =>
      simp only [SyrahBridge._process_command, SyrahBridge._handle_kill, hl]
      exact dictPop_keys_nodup st.intercepted_flows fid hnd
  | updateRules rs =>
    simpa [SyrahBridge._process_command, SyrahBridge._handle_update_rules]
      using hnd
  | ping => simpa [SyrahBridge._process_command] using hnd
  | unknown => simpa [SyrahBridge._process_command] using hnd

theorem process_release_success (st : SyrahBridge) (c : Cmd) (fid : String)
    (hnd : (st.intercepted_flows.map Prod.fst).Nodup)
    (hr : releasesId fid (st._process_command c).2 = true) :
    dictLookup (st._process_command c).1.intercepted_flows fid = none := by
  cases c with
  | resume fid1 m =>
    cases hl : dictLookup st.intercepted_flows fid1 with
    | none =>
      simp [SyrahBridge._process_command, SyrahBridge._handle_resume, hl,
        releasesId] at hr
    | some f =>
      simp only [SyrahBridge._process_command, SyrahBridge._handle_resume, hl,
        releasesId] at hr ⊢
      have : fid1 = fid := by simpa using hr
      subst this
      exact dictLookup_dictPop_self st.intercepted_flows fid1 hnd
  | kill fid1 =>
    cases hl : dictLookup st.intercepted_flows fid1 with
    | none =>
      simp [SyrahBridge._process_command, SyrahBridge._handle_kill, hl,
        releasesId] at hr
    | some f =>
      simp only [SyrahBridge._process_command, SyrahBridge._handle_kill, hl,
        releasesId] at hr ⊢
      have : fid1 = fid := by simpa using hr
      subst this
      exact dictLookup_dictPop_self st.intercepted_flows fid1 hnd
  | updateRules rs =>
    simp [SyrahBridge._process_command, releasesId] at hr
  | ping => simp [SyrahBridge._process_command, releasesId] at hr
  | unknown => simp [SyrahBridge._process_command, releasesId] at hr

theorem runCmds_count_zero (fid : String) (cs : List Cmd) :
    ∀ st : SyrahBridge, dictLookup st.intercepted_flows fid = none →
      List.countP (releasesId fid) (runCmds st cs).2 = 0 := by
  induction cs with
  | nil => intro st _; rfl
  | cons c t ih =>
    intro st habs
    have h := process_preserves_absent st c fid habs
    show List.countP (releasesId fid)
      ((st._process_command c).2 :: (runCmds (st._process_command c).1 t).2) = 0
    rw [List.countP_cons]
    rw [ih (st._process_command c).1 h.1]
    simp [h.2]

theorem runCmds_count_le_one (fid : String) (cs : List Cmd) :
    ∀ st : SyrahBridge, (st.intercepted_flows.map Prod.fst).Nodup →
      List.countP (releasesId fid) (runCmds st cs).2 ≤ 1 := by
  induction cs with
  | nil => intro st _; simp [runCmds]
  | cons c t ih =>
    intro st hnd
    show List.countP (releasesId fid)
      ((st._process_command c).2 :: (runCmds (st._process_command c).1 t).2) ≤ 1
    rw [List.countP_cons]
    by_cases hr : releasesId fid (st._process_command c).2 = true
    · have habs := process_release_success st c fid hnd hr
      rw [runCmds_count_zero fid t (st._process_command c).1 habs]
      simp [hr]
    · have h2 := ih (st._process_command c).1 (process_preserves_nodup st c hnd)
      simp only [Bool.not_eq_true] at hr
      simpa [hr] using h2

/-! ### Claim C1: the rule matcher returns the first qualifying rule -/

/-- C1 theorem (amended): for every rule list, flow, phase and optional
type filter, `_find_matching_rule` returns exactly the first rule in
declaration order that is enabled, whose phase equals the given phase,
whose type equals the type filter whenever a non-empty type filter is
given, and whose url pattern glob-matches the flow's request URL; it
returns none when no rule qualifies, and a disabled rule is never
returned. -/
theorem find_matching_rule_first_qualifying (st : SyrahBridge) (flow : Flow)
    (phase : String) (rule_type : Option String) :
    st._find_matching_rule flow phase rule_type =
      st.rules.find? (ruleQualifies flow.request.url phase rule_type) ∧
    (∀ r, st._find_matching_rule flow phase rule_type = some r →
      r.enabled = true) := by
  constructor
  · exact findRuleIn_eq_find flow.request.url phase rule_type st.rules
  · intro r hr
    have hr2 : st.rules.find? (ruleQualifies flow.request.url phase rule_type)
        = some r := by
      rw [← findRuleIn_eq_find flow.request.url phase rule_type st.rules]
      exact hr
    have hq := List.find?_some hr2
    simp only [ruleQualifies, Bool.and_eq_true] at hq
    exact hq.1.1.1

/-- A concrete breakpoint rule for the C1 witness. -/
def c1wRule : ProxyRule :=
  { id := "w1", type := "breakpoint", url_pattern := "*", enabled := true,
    phase := "request" }

/-- A concrete bridge state for the C1 witness. -/
def c1wSt : SyrahBridge := { rules := [c1wRule], intercepted_flows := [] }

/-- A concrete flow for the C1 witness. -/
def c1wFlow : Flow :=
  { id := "fw",
    request := { method := "GET", url := "https://a.com/x", headers := [],
                 content := none },
    response := none, intercepted := false, error := none }

/-- Witness for the C1 theorem at concrete inputs. -/
theorem find_matching_rule_first_qualifying_witness :
    c1wSt._find_matching_rule c1wFlow "request" (some "breakpoint") =
      c1wSt.rules.find?
        (ruleQualifies c1wFlow.request.url "request" (some "breakpoint")) ∧
    c1wRule.enabled = true :=
  ⟨(find_matching_rule_first_qualifying c1wSt c1wFlow "request"
      (some "breakpoint")).1,
   (find_matching_rule_first_qualifying c1wSt c1wFlow "request"
      (some "breakpoint")).2 c1wRule (by decide)⟩

/-- A concrete block-typed rule for the C1 counterexample. -/
def c1Rule : ProxyRule :=
  { id := "r1", type := "block", url_pattern := "*", enabled := true,
    phase := "request" }

/-- A concrete bridge state for the C1 counterexample. -/
def c1St : SyrahBridge := { rules := [c1Rule], intercepted_flows := [] }

/-- A concrete flow for the C1 counterexample. -/
def c1Flow : Flow :=
  { id := "f1",
    request := { method := "GET", url := "https://a.com/x", headers := [],
                 content := none },
    response := none, intercepted := false, error := none }

/-- C1 counterexample: with the type filter given as the empty string,
the returned rule's type differs from the given filter, so a rule whose
type differs from a given type filter is not always skipped. -/
theorem find_matching_rule_empty_filter_cex :
    c1St._find_matching_rule c1Flow "request" (some "") = some c1Rule ∧
      c1Rule.type ≠ "" := by
  refine ⟨by decide, by decide⟩

/-! ### Claim C5: updateRules replaces the rule set wholesale -/

/-- Rule decoding as the amended claim C5 words it: a missing id, type
or url pattern decodes to the empty string, a missing enabled flag to
true, a missing phase to request, and the optional payload fields pass
through; no rule object is ever rejected. -/
def decodeRuleSpec (r : RuleJson) : ProxyRule :=
  { id := r.id.getD ""
    type := r.type.getD ""
    url_pattern := r.urlPattern.getD ""
    enabled := r.enabled.getD true
    phase := r.phase.getD "request"
    file_path := r.filePath
    target_url := r.targetUrl
    status_code := r.statusCode
    headers := r.headers
    body := r.body }

/-- C5 theorem (amended): processing an updateRules command replaces the
entire rule set with the rules decoded from the given array, preserving
its order and accepting every rule object, with missing optional fields
defaulting to the empty string for id, type and url pattern, and to true
for enabled. -/
theorem update_rules_replaces_decoded (st : SyrahBridge)
    (rules_data : List RuleJson) :
    (st._handle_update_rules rules_data).rules =
      rules_data.map decodeRuleSpec ∧
    (st._handle_update_rules rules_data).rules.length = rules_data.length := by
  have hfun : decodeRule = decodeRuleSpec := rfl
  constructor
  · show rules_data.map decodeRule = rules_data.map decodeRuleSpec
    rw [hfun]
  · simp [SyrahBridge._handle_update_rules]

/-- A concrete bridge state for the C5 counterexample. -/
def c5St : SyrahBridge :=
  { rules := [{ id := "old", type := "block", url_pattern := "*" }],
    intercepted_flows := [] }

/-- C5 counterexample: a rule object carrying no enabled key decodes
with enabled true, not false. -/
theorem update_rules_default_enabled_cex :
    (c5St._handle_update_rules [{}]).rules.map (fun r => r.enabled) =
      [true] := by
  decide

/-! ### Claim C8: an empty updateRules clears all matching -/

/-- C8 theorem: after an updateRules command with an empty rules array
the rule set is empty and every `_find_matching_rule` call, for any
flow, phase and type filter, returns none, and keeps returning none
across any further commands none of which is an updateRules. -/
theorem empty_update_rules_clears_matching (st : SyrahBridge) :
    (st._handle_update_rules []).rules = [] ∧
    (∀ flow phase tf,
      (st._handle_update_rules [])._find_matching_rule flow phase tf = none) ∧
    (∀ cs : List Cmd, (∀ c ∈ cs, isUpdateRules c = false) →
      ∀ flow phase tf,
        ((runCmds (st._handle_update_rules []) cs).1)._find_matching_rule
          flow phase tf = none) := by
  refine ⟨rfl, ?_, ?_⟩
  · intro flow phase tf
    rfl
  · intro cs hcs flow phase tf
    show findRuleIn flow.request.url phase tf
      (runCmds (st._handle_update_rules []) cs).1.rules = none
    rw [runCmds_preserves_rules cs (st._handle_update_rules []) hcs]
    rfl

/-- A concrete bridge state for the C8 witness. -/
def c8St : SyrahBridge :=
  { rules := [{ id := "r", type := "block", url_pattern := "*" }],
    intercepted_flows := [] }

/-- A concrete flow for the C8 witness. -/
def c8Flow : Flow :=
  { id := "f8",
    request := { method := "GET", url := "https://a.com/z", headers := [],
                 content := none },
    response := none, intercepted := false, error := none }

/-- Witness for the C8 theorem at concrete inputs. -/
theorem empty_update_rules_clears_matching_witness :
    (c8St._handle_update_rules []).rules = [] ∧
    ((runCmds (c8St._handle_update_rules []) [Cmd.ping]).1)._find_matching_rule
      c8Flow "request" (some "block") = none :=
  ⟨(empty_update_rules_clears_matching c8St).1,
   (empty_update_rules_clears_matching c8St).2.2 [Cmd.ping] (by decide)
     c8Flow "request" (some "block")⟩

/-! ### Claim C9: glob matching examples -/

/-- C9 theorem: URL pattern matching uses whole-string glob semantics:
the star-slash-api pattern matches the two example URLs, and the
star-dot-png pattern does not match the example URL that does not end in
that suffix. -/
theorem matches_pattern_glob_examples :
    _matches_pattern "https://example.com/api/users" "*/api/*" = true ∧
    _matches_pattern "http://x/y/api/z/q" "*/api/*" = true ∧
    _matches_pattern "https://x/y/api/users" "*.png" = false := by
  refine ⟨by decide, by decide, by decide⟩

/-! ### Claim C2: release is exactly-once -/

/-- C2 theorem: once a flow id is registered, killing it yields the
registered handle and removes the entry; resuming it yields a handle and
removes the entry (with no modifications, the handle is exactly the
registered one); any resume or kill against a registry without the id
reports not-found and leaves the state unchanged; and over any command
sequence at most one release of the id succeeds. -/
theorem release_exactly_once (st : SyrahBridge) (fid : String) (f : Flow)
    (hnd : (st.intercepted_flows.map Prod.fst).Nodup)
    (hreg : dictLookup st.intercepted_flows fid = some f) :
    ((st._handle_kill fid).2 = some f ∧
      dictLookup (st._handle_kill fid).1.intercepted_flows fid = none) ∧
    ((st._handle_resume fid none).2 = some f ∧
      ∀ m, (st._handle_resume fid m).2.isSome = true ∧
        dictLookup (st._handle_resume fid m).1.intercepted_flows fid = none) ∧
    (∀ st1 : SyrahBridge, dictLookup st1.intercepted_flows fid = none →
      (∀ m, st1._handle_resume fid m = (st1, none)) ∧
        st1._handle_kill fid = (st1, none)) ∧
    (∀ cs : List Cmd, List.countP (releasesId fid) (runCmds st cs).2 ≤ 1) := by
  refine ⟨⟨?_, ?_⟩, ⟨?_, ?_⟩, ?_, ?_⟩
  · simp [SyrahBridge._handle_kill, hreg]
  · simp only [SyrahBridge._handle_kill, hreg]
    exact dictLookup_dictPop_self st.intercepted_flows fid hnd
  · simp [SyrahBridge._handle_resume, hreg]
  · intro m
    refine ⟨?_, ?_⟩
    · cases m <;> simp [SyrahBridge._handle_resume, hreg]
    · cases m <;>
        · simp only [SyrahBridge._handle_resume, hreg]
          exact dictLookup_dictPop_self st.intercepted_flows fid hnd
  · intro st1 habs
    exact ⟨fun m => by simp [SyrahBridge._handle_resume, habs],
      by simp [SyrahBridge._handle_kill, habs]⟩
  · intro cs
    exact runCmds_count_le_one fid cs st hnd

/-- A concrete flow for the C2 witness. -/
def c2Flow : Flow :=
  { id := "f2",
    request := { method := "GET", url := "https://a.com/held", headers := [],
                 content := none },
    response := none, intercepted := true, error := none }

/-- A concrete bridge state holding one flow, for the C2 witness. -/
def c2St : SyrahBridge :=
  { rules := [], intercepted_flows := [("f2", c2Flow)] }

/-- Witness for the C2 theorem at concrete inputs. -/
theorem release_exactly_once_witness :
    (c2St._handle_kill "f2").2 = some c2Flow ∧
    List.countP (releasesId "f2")
      (runCmds c2St [Cmd.kill "f2", Cmd.kill "f2"]).2 ≤ 1 :=
  ⟨((release_exactly_once c2St "f2" c2Flow (by decide) (by decide)).1).1,
   (release_exactly_once c2St "f2" c2Flow (by decide)
      (by decide)).2.2.2 [Cmd.kill "f2", Cmd.kill "f2"]⟩

/-! ### Claim C6: resume modification semantics -/

theorem applyModified_request (m : Modified) (flow : Flow) :
    (applyModified m flow).request =
      (match m.request with
       | some rm => applyReqMod rm flow.request
       | none => flow.request) := by
  unfold applyModified
  cases hmr : m.request <;> cases hresp : m.response <;>
    cases hfr : flow.response <;> simp [hmr, hresp, hfr]

theorem applyModified_response_none (m : Modified) (flow : Flow)
    (h : m.response = none) :
    (applyModified m flow).response = flow.response := by
  unfold applyModified
  cases hmr : m.request <;> simp [h, hmr]

theorem applyModified_response_absent (m : Modified) (flow : Flow)
    (h : flow.response = none) : (applyModified m flow).response = none := by
  unfold applyModified
  cases hmr : m.request <;> cases hresp : m.response <;> simp [h, hmr, hresp]

theorem applyReqMod_headers (rm : ReqMod) (req : Request)
    (H : List (String × String)) (hH : rm.headers = some H) :
    (applyReqMod rm req).headers = replaceHeaders H := by
  unfold applyReqMod
  cases hm : rm.method <;> cases hu : rm.url <;> cases hb : rm.body <;>
    simp [hH, hm, hu, hb]

theorem applyReqMod_method (rm : ReqMod) (req : Request)
    (h : rm.method = none) : (applyReqMod rm req).method = req.method := by
  unfold applyReqMod
  cases hu : rm.url <;> cases hh : rm.headers <;> cases hb : rm.body <;>
    simp [h, hu, hh, hb]

theorem applyReqMod_url (rm : ReqMod) (req : Request)
    (h : rm.url = none) : (applyReqMod rm req).url = req.url := by
  unfold applyReqMod
  cases hm : rm.method <;> cases hh : rm.headers <;> cases hb : rm.body <;>
    simp [h, hm, hh, hb]

theorem applyReqMod_content (rm : ReqMod) (req : Request)
    (h : rm.body = none) : (applyReqMod rm req).content = req.content := by
  unfold applyReqMod
  cases hm : rm.method <;> cases hu : rm.url <;> cases hh : rm.headers <;>
    simp [h, hm, hu, hh]

/-- C6 theorem: for a resume command carrying a modified object whose
request part has a headers mapping H, the released flow's request
headers are afterwards exactly H (existing headers cleared, then each
given key and value set, not a merge); request fields absent from the
modified object keep their intercepted values; a response part is
applied only when the flow has a response, and an absent response part
leaves the response unchanged. -/
theorem resume_modification_semantics (st : SyrahBridge) (fid : String)
    (flow : Flow) (m : Modified) (rm : ReqMod) (H : List (String × String))
    (hreg : dictLookup st.intercepted_flows fid = some flow)
    (hrm : m.request = some rm) (hH : rm.headers = some H)
    (hnd : (H.map Prod.fst).Nodup) :
    ∃ f1, (st._handle_resume fid (some m)).2 = some f1 ∧
      f1.request.headers = H ∧
      (rm.method = none → f1.request.method = flow.request.method) ∧
      (rm.url = none → f1.request.url = flow.request.url) ∧
      (rm.body = none → f1.request.content = flow.request.content) ∧
      (m.response = none → f1.response = flow.response) ∧
      (flow.response = none → f1.response = none) := by
  have hreq : (applyModified m flow).request = applyReqMod rm flow.request := by
    rw [applyModified_request m flow, hrm]
  refine ⟨applyModified m flow, ?_, ?_, ?_, ?_, ?_, ?_, ?_⟩
  · simp [SyrahBridge._handle_resume, hreg]
  · rw [hreq, applyReqMod_headers rm flow.request H hH,
      replaceHeaders_eq_self H hnd]
  · intro h
    rw [hreq, applyReqMod_method rm flow.request h]
  · intro h
    rw [hreq, applyReqMod_url rm flow.request h]
  · intro h
    rw [hreq, applyReqMod_content rm flow.request h]
  · intro h
    exact applyModified_response_none m flow h
  · intro h
    exact applyModified_response_absent m flow h

/-- A concrete flow with two prior headers, for the C6 witness. -/
def c6Flow : Flow :=
  { id := "f6",
    request := { method := "GET", url := "https://a.com/h",
                 headers := [("Old", "1"), ("Stale", "2")],
                 content := some [104] },
    response := none, intercepted := true, error := none }

/-- A concrete bridge state holding the C6 flow. -/
def c6St : SyrahBridge :=
  { rules := [], intercepted_flows := [("f6", c6Flow)] }

/-- The concrete modified object of the C6 witness: replace the request
headers with a single mapping. -/
def c6Mod : Modified :=
  { request := some { headers := some [("X", "1")] }, response := none }

/-- Witness for the C6 theorem at concrete inputs. -/
theorem resume_modification_semantics_witness :
    ∃ f1, (c6St._handle_resume "f6" (some c6Mod)).2 = some f1 ∧
      f1.request.headers = [("X", "1")] ∧
      (({ headers := some [("X", "1")] } : ReqMod).method = none →
        f1.request.method = c6Flow.request.method) ∧
      (({ headers := some [("X", "1")] } : ReqMod).url = none →
        f1.request.url = c6Flow.request.url) ∧
      (({ headers := some [("X", "1")] } : ReqMod).body = none →
        f1.request.content = c6Flow.request.content) ∧
      (c6Mod.response = none → f1.response = c6Flow.response) ∧
      (c6Flow.response = none → f1.response = none) :=
  resume_modification_semantics c6St "f6" c6Flow c6Mod
    { headers := some [("X", "1")] } [("X", "1")] (by decide) (by decide)
    (by decide) (by decide)

/-! ### Hook lemmas shared by the request-phase claims -/

theorem request_hook_flow (st : SyrahBridge) (flow : Flow) :
    (st.request flow).flow = st.requestRewritten flow := by
  unfold SyrahBridge.request
  by_cases hb : (st._find_matching_rule (st.requestRewritten flow) "request"
      (some RuleType.BLOCK.value)).isSome = true <;>
    simp [hb]

theorem request_hook_st_bp (st : SyrahBridge) (flow : Flow)
    (hbp : (st._find_matching_rule flow "request"
      (some RuleType.BREAKPOINT.value)).isSome = true) :
    (st.request flow).st.intercepted_flows =
      dictInsert st.intercepted_flows flow.id (st.requestRewritten flow) := by
  unfold SyrahBridge.request
  by_cases hb : (st._find_matching_rule (st.requestRewritten flow) "request"
      (some RuleType.BLOCK.value)).isSome = true <;>
    simp [hb, hbp]

theorem request_hook_st_no_bp (st : SyrahBridge) (flow : Flow)
    (hbp : (st._find_matching_rule flow "request"
      (some RuleType.BREAKPOINT.value)).isSome = false) :
    (st.request flow).st = st := by
  unfold SyrahBridge.request
  by_cases hb : (st._find_matching_rule (st.requestRewritten flow) "request"
      (some RuleType.BLOCK.value)).isSome = true <;>
    simp [hb, hbp]

theorem request_hook_killed_of_block (st : SyrahBridge) (flow : Flow)
    (hbl : (st._find_matching_rule (st.requestRewritten flow) "request"
      (some RuleType.BLOCK.value)).isSome = true) :
    (st.request flow).killed = true ∧ (st.request flow).events = [] := by
  unfold SyrahBridge.request
  simp [hbl]

theorem request_hook_event_of_no_block (st : SyrahBridge) (flow : Flow)
    (hbl : st._find_matching_rule (st.requestRewritten flow) "request"
      (some RuleType.BLOCK.value) = none) :
    (st.request flow).killed = false ∧
      (st.request flow).events = [("request", st.requestRewritten flow)] := by
  unfold SyrahBridge.request
  simp [hbl]

theorem find_matching_rule_requestIntercepted (st : SyrahBridge) (flow : Flow)
    (phase : String) (rt : Option String) :
    st._find_matching_rule (st.requestIntercepted flow) phase rt =
      st._find_matching_rule flow phase rt := by
  unfold SyrahBridge.requestIntercepted
  by_cases hb : (st._find_matching_rule flow "request"
      (some RuleType.BREAKPOINT.value)).isSome = true
  · rw [if_pos hb]
    rfl
  · rw [if_neg hb]

theorem requestRewritten_url_of_map_remote (st : SyrahBridge) (flow : Flow)
    (r : ProxyRule) (t : String)
    (hmr : st._find_matching_rule flow "request"
      (some RuleType.MAP_REMOTE.value) = some r)
    (ht : r.target_url = some t) (htne : t ≠ "") :
    (st.requestRewritten flow).request.url = t := by
  simp only [SyrahBridge.requestRewritten]
  rw [find_matching_rule_requestIntercepted st flow "request"
    (some RuleType.MAP_REMOTE.value), hmr]
  simp [optStrTruthy, ht, htne]

/-! ### Claim C3: request-phase policy order -/

/-- C3 theorem: the request hook applies breakpoint, then map remote,
then block, so block rules are matched against the flow as already
rewritten: when a map-remote rule with a non-empty target matches, the
hook's resulting flow carries the target URL; when a block rule matches
the rewritten flow, the hook kills the flow and emits no request-phase
event; when no block rule matches, exactly one request-phase event is
emitted for the (possibly rewritten) flow. -/
theorem request_policy_order (st : SyrahBridge) (flow : Flow) :
    ((st._find_matching_rule (st.requestRewritten flow) "request"
        (some RuleType.BLOCK.value)).isSome = true →
      (st.request flow).killed = true ∧ (st.request flow).events = []) ∧
    (st._find_matching_rule (st.requestRewritten flow) "request"
        (some RuleType.BLOCK.value) = none →
      (st.request flow).killed = false ∧
        (st.request flow).events = [("request", st.requestRewritten flow)]) ∧
    (∀ r t, st._find_matching_rule flow "request"
        (some RuleType.MAP_REMOTE.value) = some r →
      r.target_url = some t → t ≠ "" →
      (st.request flow).flow.request.url = t) := by
  refine ⟨request_hook_killed_of_block st flow,
    request_hook_event_of_no_block st flow, ?_⟩
  intro r t hmr ht htne
  rw [request_hook_flow st flow]
  exact requestRewritten_url_of_map_remote st flow r t hmr ht htne

/-- The map-remote rule of the C3 witness. -/
def c3MrRule : ProxyRule :=
  { id := "mr", type := "mapRemote", url_pattern := "*old*",
    target_url := some "https://new.example/x" }

/-- The block rule of the C3 witness, matching only the rewritten URL. -/
def c3BlRule : ProxyRule :=
  { id := "bl", type := "block", url_pattern := "*new*" }

/-- The bridge state of the C3 witness. -/
def c3St : SyrahBridge :=
  { rules := [c3MrRule, c3BlRule], intercepted_flows := [] }

/-- The flow of the C3 witness. -/
def c3Flow : Flow :=
  { id := "f3",
    request := { method := "GET", url := "https://old.example/a",
                 headers := [], content := none },
    response := none, intercepted := false, error := none }

/-- Witness for the C3 theorem at concrete inputs: the rewrite happens
first, then the block rule matching the rewritten URL kills the flow
with no event. -/
theorem request_policy_order_witness :
    ((c3St.request c3Flow).killed = true ∧ (c3St.request c3Flow).events = []) ∧
    (c3St.request c3Flow).flow.request.url = "https://new.example/x" :=
  ⟨(request_policy_order c3St c3Flow).1 (by decide),
   (request_policy_order c3St c3Flow).2.2 c3MrRule "https://new.example/x"
     (by decide) (by decide) (by decide)⟩

/-! ### Claim C10: a blocked flow stays registered -/

/-- C10 theorem: when a request matches an enabled request-phase
breakpoint rule and the (possibly rewritten) flow also matches an
enabled request-phase block rule, the hook registers the flow and then
kills it, returning without an event, so the registry retains an entry
for the terminated flow; a later kill returns exactly that entry and
removes it, and a later resume likewise finds and removes it. -/
theorem blocked_flow_stays_registered (st : SyrahBridge) (flow : Flow)
    (hnd : (st.intercepted_flows.map Prod.fst).Nodup)
    (hbp : (st._find_matching_rule flow "request"
      (some RuleType.BREAKPOINT.value)).isSome = true)
    (hbl : (st._find_matching_rule (st.requestRewritten flow) "request"
      (some RuleType.BLOCK.value)).isSome = true) :
    (st.request flow).killed = true ∧
    (st.request flow).events = [] ∧
    dictLookup (st.request flow).st.intercepted_flows flow.id =
      some (st.requestRewritten flow) ∧
    ((st.request flow).st._handle_kill flow.id).2 =
      some (st.requestRewritten flow) ∧
    dictLookup
      ((st.request flow).st._handle_kill flow.id).1.intercepted_flows
      flow.id = none ∧
    (∀ m, ((st.request flow).st._handle_resume flow.id m).2.isSome = true) := by
  have hk := request_hook_killed_of_block st flow hbl
  have hst := request_hook_st_bp st flow hbp
  have hlook : dictLookup (st.request flow).st.intercepted_flows flow.id =
      some (st.requestRewritten flow) := by
    rw [hst]
    exact dictLookup_dictInsert_self st.intercepted_flows flow.id
      (st.requestRewritten flow)
  have hnd2 : ((st.request flow).st.intercepted_flows.map Prod.fst).Nodup := by
    rw [hst]
    exact dictInsert_keys_nodup st.intercepted_flows flow.id
      (st.requestRewritten flow) hnd
  refine ⟨hk.1, hk.2, hlook, ?_, ?_, ?_⟩
  · simp [SyrahBridge._handle_kill, hlook]
  · simp only [SyrahBridge._handle_kill, hlook]
    exact dictLookup_dictPop_self _ flow.id hnd2
  · intro m
    cases m <;> simp [SyrahBridge._handle_resume, hlook]

/-- The breakpoint rule of the C10 witness. -/
def c10BpRule : ProxyRule :=
  { id := "bp", type := "breakpoint", url_pattern := "*secret*" }

/-- The block rule of the C10 witness. -/
def c10BlRule : ProxyRule :=
  { id := "bl", type := "block", url_pattern := "*secret*" }

/-- The bridge state of the C10 witness. -/
def c10St : SyrahBridge :=
  { rules := [c10BpRule, c10BlRule], intercepted_flows := [] }

/-- The flow of the C10 witness. -/
def c10Flow : Flow :=
  { id := "f10",
    request := { method := "GET", url := "https://a.com/secret/x",
                 headers := [], content := none },
    response := none, intercepted := false, error := none }

/-- Witness for the C10 theorem at concrete inputs. -/
theorem blocked_flow_stays_registered_witness :
    (c10St.request c10Flow).killed = true ∧
    dictLookup (c10St.request c10Flow).st.intercepted_flows "f10" =
      some (c10St.requestRewritten c10Flow) ∧
    ((c10St.request c10Flow).st._handle_kill "f10").2 =
      some (c10St.requestRewritten c10Flow) := by
  have h := blocked_flow_stays_registered c10St c10Flow (by decide) (by decide)
    (by decide)
  exact ⟨h.1, h.2.2.1, h.2.2.2.1⟩

/-! ### Claim C4: registering over an existing entry -/

/-- C4 theorem (amended): registration keeps the registry holding at
most one entry per flow id under both hooks; but when a breakpoint rule
matches a flow whose id already has an entry, the hook silently replaces
the entry with the newly held flow (last write wins) rather than
failing and leaving it unchanged. -/
theorem register_replaces_existing (st : SyrahBridge) (flow : Flow)
    (fs : FileSystem)
    (hnd : (st.intercepted_flows.map Prod.fst).Nodup) :
    ((st.request flow).st.intercepted_flows.map Prod.fst).Nodup ∧
    (((SyrahBridge.response fs st flow).st).intercepted_flows.map
      Prod.fst).Nodup ∧
    ((st._find_matching_rule flow "request"
        (some RuleType.BREAKPOINT.value)).isSome = true →
      dictLookup (st.request flow).st.intercepted_flows flow.id =
        some (st.requestRewritten flow)) := by
  refine ⟨?_, ?_, ?_⟩
  · by_cases hb : (st._find_matching_rule flow "request"
        (some RuleType.BREAKPOINT.value)).isSome = true
    · rw [request_hook_st_bp st flow hb]
      exact dictInsert_keys_nodup st.intercepted_flows flow.id
        (st.requestRewritten flow) hnd
    · rw [request_hook_st_no_bp st flow (by simpa using hb)]
      exact hnd
  · unfold SyrahBridge.response
    by_cases hb : (st._find_matching_rule
        ({ st.responseMapped fs flow with intercepted := true })
        "response" (some RuleType.BREAKPOINT.value)).isSome = true
    · by_cases hb2 : (st._find_matching_rule (st.responseMapped fs flow)
          "response" (some RuleType.BREAKPOINT.value)).isSome = true
      · simp only [hb2, if_true]
        exact dictInsert_keys_nodup _ _ _ hnd
      · simp only [hb2, if_false]
        simpa using hnd
    · by_cases hb2 : (st._find_matching_rule (st.responseMapped fs flow)
          "response" (some RuleType.BREAKPOINT.value)).isSome = true
      · simp only [hb2, if_true]
        exact dictInsert_keys_nodup _ _ _ hnd
      · simp only [hb2, if_false]
        simpa using hnd
  · intro hbp
    rw [request_hook_st_bp st flow hbp]
    exact dictLookup_dictInsert_self st.intercepted_flows flow.id
      (st.requestRewritten flow)

/-- The previously held flow of the C4 scenario. -/
def c4FlowOld : Flow :=
  { id := "f4",
    request := { method := "GET", url := "https://a.com/1", headers := [],
                 content := none },
    response := none, intercepted := true, error := none }

/-- A different flow carrying the same id, arriving while the first is
held. -/
def c4FlowNew : Flow :=
  { id := "f4",
    request := { method := "POST", url := "https://a.com/2", headers := [],
                 content := none },
    response := none, intercepted := false, error := none }

/-- The bridge state of the C4 scenario: a breakpoint rule and an
existing registry entry for the id. -/
def c4St : SyrahBridge :=
  { rules := [{ id := "bp", type := "breakpoint", url_pattern := "*" }],
    intercepted_flows := [("f4", c4FlowOld)] }

/-- C4 counterexample: registering over an existing entry replaces the
held handle instead of failing and leaving the existing entry
unchanged. -/
theorem register_replaces_existing_cex :
    dictLookup (c4St.request c4FlowNew).st.intercepted_flows "f4" ≠
      some c4FlowOld := by
  decide

/-- Witness for the C4 theorem at concrete inputs. -/
theorem register_replaces_existing_witness :
    ((c4St.request c4FlowNew).st.intercepted_flows.map Prod.fst).Nodup ∧
    dictLookup (c4St.request c4FlowNew).st.intercepted_flows "f4" =
      some (c4St.requestRewritten c4FlowNew) := by
  have h := register_replaces_existing c4St c4FlowNew (fun _ => none)
    (by decide)
  exact ⟨h.1, h.2.2 (by decide)⟩

/-! ### Claim C7: serialization body policy -/

/-- C7 theorem (amended): serializing a flow includes a request or
response body of byte-length L with 0 < L < 1000000 as text under the
body key; a body with L at or above the threshold is omitted together
with any fallback; when text decoding of a request body fails the body
key is set to null (not omitted) and a hex-encoded raw-byte fallback key
is included; when text decoding of a response body fails the body key is
set to null with no fallback. -/
theorem serialize_flow_body_policy (flow : Flow) (phase : String)
    (bs : Bytes) :
    (flow.request.content = some bs → 0 < bs.length → bs.length < 1000000 →
      ((∀ t, get_text bs = some t →
          (SyrahBridge._serialize_flow flow phase).request.body =
            some (some t) ∧
          (SyrahBridge._serialize_flow flow phase).request.bodyBase64 =
            none) ∧
       (get_text bs = none →
          (SyrahBridge._serialize_flow flow phase).request.body = some none ∧
          (SyrahBridge._serialize_flow flow phase).request.bodyBase64 =
            some (some (bytesHex bs))))) ∧
    (flow.request.content = some bs → 1000000 ≤ bs.length →
      (SyrahBridge._serialize_flow flow phase).request.body = none ∧
      (SyrahBridge._serialize_flow flow phase).request.bodyBase64 = none) ∧
    (∀ resp, flow.response = some resp → resp.content = some bs →
      0 < bs.length → bs.length < 1000000 →
      ((∀ t, get_text bs = some t →
          Option.map ResponseData.body
            (SyrahBridge._serialize_flow flow phase).response =
            some (some (some t))) ∧
       (get_text bs = none →
          Option.map ResponseData.body
            (SyrahBridge._serialize_flow flow phase).response =
            some (some none)))) ∧
    (∀ resp, flow.response = some resp → resp.content = some bs →
      1000000 ≤ bs.length →
      Option.map ResponseData.body
        (SyrahBridge._serialize_flow flow phase).response = some none) := by
  have hbt : 0 < bs.length → bytesTruthy (some bs) = true := by
    intro hpos
    cases bs with
    | nil => simp at hpos
    | cons a l => simp [bytesTruthy]
  refine ⟨?_, ?_, ?_, ?_⟩
  · intro hc hpos hlt
    constructor
    · intro t hgt
      constructor <;>
        simp [SyrahBridge._serialize_flow, hc, hbt hpos, hlt, hgt]
    · intro hgt
      constructor <;>
        simp [SyrahBridge._serialize_flow, hc, hbt hpos, hlt, hgt]
  · intro hc hge
    have hnlt : ¬bs.length < 1000000 := not_lt.mpr hge
    constructor <;> simp [SyrahBridge._serialize_flow, hc, hnlt]
  · intro resp hresp hc hpos hlt
    constructor
    · intro t hgt
      simp [SyrahBridge._serialize_flow, hresp, hc, hbt hpos, hlt, hgt]
    · intro hgt
      simp [SyrahBridge._serialize_flow, hresp, hc, hbt hpos, hlt, hgt]
  · intro resp hresp hc hge
    have hnlt : ¬bs.length < 1000000 := not_lt.mpr hge
    simp [SyrahBridge._serialize_flow, hresp, hc, hnlt]

/-- A concrete flow whose request body fails text decoding, for the C7
counterexample. -/
def c7Flow : Flow :=
  { id := "f7",
    request := { method := "POST", url := "https://a.com/u", headers := [],
                 content := some [255] },
    response := some { status_code := 200, headers := [],
                       content := some [254] },
    intercepted := false, error := none }

/-- C7 counterexample: when text decoding of a body fails the body key
is present with a null value rather than omitted, for the request
alongside the hex fallback and for the response without one. -/
theorem serialize_flow_decode_failure_cex :
    (SyrahBridge._serialize_flow c7Flow "request").request.body = some none ∧
    (SyrahBridge._serialize_flow c7Flow "request").request.body ≠ none ∧
    (SyrahBridge._serialize_flow c7Flow "request").request.bodyBase64 =
      some (some "ff") ∧
    Option.map ResponseData.body
      (SyrahBridge._serialize_flow c7Flow "request").response =
      some (some none) := by
  refine ⟨by decide, by decide, by decide, by decide⟩

/-- A concrete flow with decodable bodies, for the C7 witness. -/
def c7wFlow : Flow :=
  { id := "f7w",
    request := { method := "POST", url := "https://a.com/w", headers := [],
                 content := some [104, 105] },
    response := none, intercepted := false, error := none }

/-- Witness for the C7 theorem at concrete inputs. -/
theorem serialize_flow_body_policy_witness :
    (SyrahBridge._serialize_flow c7wFlow "request").request.body =
      some (some "hi") ∧
    (SyrahBridge._serialize_flow c7wFlow "request").request.bodyBase64 =
      none :=
  ((serialize_flow_body_policy c7wFlow "request" [104, 105]).1 (by decide)
      (by decide) (by decide)).1 "hi" (by decide)

end Syrah
